import Mathlib

/-!
Shallow embedding of the infinigo client library (src/infinity.go) in Lean 4.

The library is a small HTTP client: a configurable `Client` built via option
functions (`New`, `SetKey`, `SetURL`, ...), a request executor (`do`, here
`doReq` since `do` is a Lean keyword) with error classification
(`handleError`), and two public operations (`Query`, `Upload`, `UploadFile`).

External collaborators are modelled as follows:
- the HTTP transport (`http.Client.Do`) is an oracle `Transport` supplied by
  the theorem statements;
- JSON decoding (`encoding/json`) is an oracle `Decoder` that may partially
  fill the result value and report an error;
- loggers (`log.Logger`) are modelled by their presence (`Bool`) plus an
  explicit list of emitted `LogEvent`s; timestamps in trace lines are elided
  because real time is not representable in the embedding;
- the Go standard library pieces the code's behaviour depends on
  (`net/url` scheme parsing, `url.Values.Encode`, `strings` helpers,
  `net/http.StatusText`, `compress/gzip`) are given executable models whose
  doc comments state exactly what is modelled.
-/

namespace Infinigo

/-- A byte, kept as `Nat` (always < 256 where produced). -/
abbrev Byte := Nat

/-! ## Constants (src/infinity.go lines 24-30) -/

def DefaultURL : String := "https://api.cylance.com/apiv2/"

def AuthHeader : String := "X-IAUTH"

def ContentTypeHeader : String := "Content-Type"

def ContentLengthHeader : String := "Content-Length"

def GzipContentType : String := "application/xgzip"

/-! ## Error model (src/infinity.go lines 32-45) -/

/-- `Error` struct: machine id plus human detail (lines 33-36). -/
structure Error where
  id : String
  details : String
deriving DecidableEq, Repr

/-- `ErrMissingCredentials` (line 44). -/
def ErrMissingCredentials : Error :=
  { id := "missing_credentials", details := "You must provide the Infinity API key" }

/-! ## String helpers mirroring the `strings` package uses -/

/-- Byte-lexicographic `≤` on char lists; models the order used by
`sort.Strings` inside `url.Values.Encode` (ASCII inputs only are compared
in this development, where byte and char order agree). -/
def charsLe : List Char → List Char → Bool
  | [], _ => true
  | _ :: _, [] => false
  | a :: as, b :: bs =>
    if a.toNat < b.toNat then true
    else if b.toNat < a.toNat then false
    else charsLe as bs

def strLe (a b : String) : Bool := charsLe a.data b.data

/-- `strings.Join(xs, ",")`. -/
def joinComma : List String → String
  | [] => ""
  | [x] => x
  | x :: y :: rest => x ++ "," ++ joinComma (y :: rest)

/-- `strings.Join(xs, "&")` as used by `url.Values.Encode`. -/
def joinAmp : List String → String
  | [] => ""
  | [x] => x
  | x :: y :: rest => x ++ "&" ++ joinAmp (y :: rest)

/-- `strings.HasSuffix`. -/
def hasSuffix (s suffix : String) : Bool := List.isSuffixOf suffix.data s.data

/-- ASCII lowering of one char; models `strings.ToLower` on the scheme
(schemes compared by the code are ASCII). -/
def toLowerChar (ch : Char) : Char :=
  if 65 ≤ ch.toNat ∧ ch.toNat ≤ 90 then Char.ofNat (ch.toNat + 32) else ch

def toLowerStr (s : String) : String := ⟨s.data.map toLowerChar⟩

/-! ## Model of `net/url` scheme parsing and query encoding

Modelled from the Go standard library `net/url`: `getScheme`'s scan, the
control-byte rejection of `url.Parse`, `url.QueryEscape` and
`url.Values.Encode`. Percent-escape validation and the splitting of the URL
into host/path components are not modelled: `SetURL` only consumes the
scheme and the parse success/failure, and parse failures are propagated as
opaque errors by the code under test. -/

def isSchemeAlpha (ch : Char) : Bool :=
  (65 ≤ ch.toNat && ch.toNat ≤ 90) || (97 ≤ ch.toNat && ch.toNat ≤ 122)

def isSchemeExtra (ch : Char) : Bool :=
  (48 ≤ ch.toNat && ch.toNat ≤ 57) || ch = '+' || ch = '-' || ch = '.'

/-- The `getScheme` scan: `none` means "no scheme, whole string is the
path", `some (scheme, rest)` splits at the first `:`; the error is Go's
"missing protocol scheme" (colon at position 0). `first` records whether we
are at index 0. -/
def schemeScan (first : Bool) : List Char → Except String (Option (List Char × List Char))
  | [] => Except.ok none
  | ch :: cs =>
    if isSchemeAlpha ch then
      match schemeScan false cs with
      | Except.ok (some (s, r)) => Except.ok (some (ch :: s, r))
      | other => other
    else if isSchemeExtra ch then
      if first then Except.ok none
      else
        match schemeScan false cs with
        | Except.ok (some (s, r)) => Except.ok (some (ch :: s, r))
        | other => other
    else if ch = ':' then
      if first then Except.error "missing protocol scheme"
      else Except.ok (some ([], cs))
    else Except.ok none

def containsCTL (s : String) : Bool :=
  s.data.any (fun ch => ch.toNat < 32 || ch.toNat = 127)

/-- The slice of `url.URL` that `SetURL` consumes. -/
structure URL where
  scheme : String
deriving DecidableEq, Repr

/-- Modelled from the Go standard library `url.Parse`: rejects control
bytes and a leading colon, extracts and lowercases the scheme, succeeds
otherwise. Parse errors are wrapped as an opaque `Error` value because the
code under test only propagates them. -/
def urlParse (raw : String) : Except Error URL :=
  if containsCTL raw then
    Except.error { id := "url_parse_error", details := "net/url: invalid control character in URL" }
  else
    match schemeScan true raw.data with
    | Except.error msg => Except.error { id := "url_parse_error", details := msg }
    | Except.ok none => Except.ok { scheme := "" }
    | Except.ok (some (s, _)) => Except.ok { scheme := toLowerStr ⟨s⟩ }

/-- UTF-8 encoding of a unicode code point. -/
def utf8EncodeNat (n : Nat) : List Byte :=
  if n < 128 then [n]
  else if n < 2048 then [192 + n / 64, 128 + n % 64]
  else if n < 65536 then [224 + n / 4096, 128 + n / 64 % 64, 128 + n % 64]
  else [240 + n / 262144, 128 + n / 4096 % 64, 128 + n / 64 % 64, 128 + n % 64]

def utf8Bytes (s : String) : List Byte :=
  (s.data.map (fun ch => utf8EncodeNat ch.toNat)).flatten

def hexDigit (n : Nat) : Char :=
  if n < 10 then Char.ofNat (48 + n) else Char.ofNat (55 + n)

/-- Bytes `url.QueryEscape` leaves unescaped: alphanumerics and `-._~`. -/
def isUnreservedByte (b : Byte) : Bool :=
  (65 ≤ b && b ≤ 90) || (97 ≤ b && b ≤ 122) || (48 ≤ b && b ≤ 57) ||
    b = 45 || b = 95 || b = 46 || b = 126

def escapeByte (b : Byte) : String :=
  if isUnreservedByte b then String.singleton (Char.ofNat b)
  else if b = 32 then "+"
  else "%" ++ String.singleton (hexDigit (b / 16)) ++ String.singleton (hexDigit (b % 16))

/-- `url.QueryEscape`. -/
def queryEscape (s : String) : String := String.join ((utf8Bytes s).map escapeByte)

def insertByKey (p : String × String) : List (String × String) → List (String × String)
  | [] => [p]
  | q :: rest => if strLe p.1 q.1 then p :: q :: rest else q :: insertByKey p rest

/-- Key-sorting done by `url.Values.Encode` (insertion sort; the maps built
by this library have distinct keys, so stability is irrelevant). -/
def sortByKey : List (String × String) → List (String × String)
  | [] => []
  | p :: rest => insertByKey p (sortByKey rest)

/-- `url.Values.Encode` for single-valued keys, as built in `doReq`. -/
def encodeValues (params : List (String × String)) : String :=
  joinAmp ((sortByKey params).map (fun p => queryEscape p.1 ++ "=" ++ queryEscape p.2))

/-! ## Model of `compress/gzip`

Modelled from the Go standard library `compress/gzip` / `compress/flate`
at the granularity the claims need:
- the writer buffers all input until `Close`; only the 10-byte gzip header
  is emitted to the underlying buffer on the first `Write` (faithful to the
  flate compressor for inputs below its ~32KB window, which covers every
  input used in the theorems below);
- `Close` finalizes: it emits the compressed payload and the 8-byte footer
  (CRC-32 and input length, little-endian);
- the DEFLATE payload is modelled as stored (uncompressed) blocks — a valid
  DEFLATE encoding (compression level 0). The properties proved depend only
  on the finalization discipline and on the encoding being invertible, not
  on byte-exact Huffman output. -/

def gzipHeader : List Byte := [31, 139, 8, 0, 0, 0, 0, 0, 0, 255]

def crc32Step (c : Nat) : Nat :=
  if c % 2 = 1 then (c / 2) ^^^ 3988292384 else c / 2

def crc32Byte (c b : Nat) : Nat := crc32Step^[8] (c ^^^ (b % 256))

def crc32 (data : List Byte) : Nat :=
  (data.foldl crc32Byte 4294967295) ^^^ 4294967295

def le32 (n : Nat) : List Byte :=
  [n % 256, n / 256 % 256, n / 65536 % 256, n / 16777216 % 256]

/-- LEN/NLEN bytes of a stored DEFLATE block (`n ≤ 65535`). -/
def storedLen (n : Nat) : List Byte :=
  [n % 256, n / 256 % 256, (65535 - n) % 256, (65535 - n) / 256 % 256]

/-- Stored-block DEFLATE encoding of `data` (block type 0, final-block flag
in the first byte); `fuel` is structural so that the definition reduces in
the kernel, and `deflateStored` supplies enough of it for any input. -/
def deflateStoredAux (fuel : Nat) (data : List Byte) : List Byte :=
  match fuel with
  | 0 => 1 :: (storedLen data.length ++ data)
  | fuel + 1 =>
    if data.length ≤ 65535 then
      1 :: (storedLen data.length ++ data)
    else
      0 :: (storedLen 65535 ++ data.take 65535 ++ deflateStoredAux fuel (data.drop 65535))

def deflateStored (data : List Byte) : List Byte := deflateStoredAux data.length data

/-- Inverse of `deflateStored`: returns the payload and the remaining
bytes after the final block. `fuel` bounds the number of blocks. -/
def inflateStored (fuel : Nat) (bs : List Byte) : Option (List Byte × List Byte) :=
  match fuel with
  | 0 => none
  | fuel + 1 =>
    match bs with
    | b :: l0 :: l1 :: n0 :: n1 :: rest =>
      let len := l0 + 256 * l1
      if l0 + n0 = 255 && l1 + n1 = 255 && len ≤ rest.length then
        let chunk := rest.take len
        let rest1 := rest.drop len
        if b = 1 then some (chunk, rest1)
        else if b = 0 then
          match inflateStored fuel rest1 with
          | some (more, fin) => some (chunk ++ more, fin)
          | none => none
        else none
      else none
    | _ => none

def gzipFooter (data : List Byte) : List Byte :=
  le32 (crc32 data) ++ le32 (data.length % 4294967296)

/-- State of a `gzip.Writer` over a `bytes.Buffer`: `out` is the buffer
contents emitted so far, `pending` the input not yet compressed. -/
structure GzipWriter where
  headerWritten : Bool
  pending : List Byte
  out : List Byte
deriving DecidableEq, Repr

def GzipWriter.new : GzipWriter := { headerWritten := false, pending := [], out := [] }

/-- `gzip.Writer.Write`: emits the header on first write, buffers the data. -/
def GzipWriter.write (w : GzipWriter) (data : List Byte) : GzipWriter :=
  { headerWritten := true
    pending := w.pending ++ data
    out := w.out ++ (if w.headerWritten then [] else gzipHeader) }

/-- `gzip.Writer.Close`: emits the header if missing, the compressed
payload, and the CRC-32/length footer. -/
def GzipWriter.close (w : GzipWriter) : GzipWriter :=
  { headerWritten := true
    pending := []
    out := w.out ++ (if w.headerWritten then [] else gzipHeader)
      ++ deflateStored w.pending ++ gzipFooter w.pending }

/-- `io.Copy(gw, data)`: never calls `Write` for an empty source. -/
def gzipCopy (w : GzipWriter) (data : List Byte) : GzipWriter :=
  if data.isEmpty then w else w.write data

/-- The finalized gzip compression of `data`: what the buffer holds after
writing `data` and closing the writer. -/
def gzipBytes (data : List Byte) : List Byte :=
  (GzipWriter.close (gzipCopy GzipWriter.new data)).out

/-- Gzip decoder matching the model: header, stored blocks, footer check. -/
def gunzip (bs : List Byte) : Option (List Byte) :=
  if List.isPrefixOf gzipHeader bs then
    let rest := bs.drop 10
    match inflateStored rest.length rest with
    | some (data, fin) => if fin = gzipFooter data then some data else none
    | none => none
  else none

/-! ## Client and configuration (src/infinity.go lines 47-180) -/

/-- `Client` (lines 48-54). The two `*log.Logger` fields are modelled by
their presence; the `*http.Client` field by whether a custom client was
installed (its behaviour is the `Transport` oracle of the theorems). -/
structure Client where
  key : String
  url : String
  errorlog : Bool
  tracelog : Bool
  customHTTP : Bool
deriving DecidableEq, Repr

/-- `OptionFunc` (line 58): Go mutates the client and may return an error;
modelled as a function to `Except`. -/
def OptionFunc := Client → Except Error Client

/-- The default instance set up at the top of `New` (lines 93-96). -/
def defaultClient : Client :=
  { key := "", url := DefaultURL, errorlog := false, tracelog := false, customHTTP := false }

/-- The option loop of `New` (lines 99-103): halt at the first error. -/
def applyOptions : List OptionFunc → Client → Except Error Client
  | [], c => Except.ok c
  | o :: rest, c =>
    match o c with
    | Except.error e => Except.error e
    | Except.ok c1 => applyOptions rest c1

/-- `New` (lines 91-111). -/
def New (options : List OptionFunc) : Except Error Client :=
  match applyOptions options defaultClient with
  | Except.error e => Except.error e
  | Except.ok c => if c.key = "" then Except.error ErrMissingCredentials else Except.ok c

/-- `SetKey` (lines 117-126). -/
def SetKey (key : String) : OptionFunc := fun c =>
  if key = "" then Except.error ErrMissingCredentials
  else Except.ok { c with key := key }

/-- `SetHTTPClient` (lines 130-139); the argument is whether a non-nil
client is supplied. -/
def SetHTTPClient (httpClientNonNil : Bool) : OptionFunc := fun c =>
  if httpClientNonNil then Except.ok { c with customHTTP := true }
  else Except.ok { c with customHTTP := false }

/-- The `bad_url` error built at line 153. -/
def badURLError (rawurl : String) : Error :=
  { id := "bad_url", details := "Invalid schema specified [" ++ rawurl ++ "]" }

/-- `SetURL` (lines 142-163). -/
def SetURL (rawurl : String) : OptionFunc := fun c =>
  let rawurl1 := if rawurl = "" then DefaultURL else rawurl
  match urlParse rawurl1 with
  | Except.error e => Except.error e
  | Except.ok u =>
    if u.scheme ≠ "http" ∧ u.scheme ≠ "https" then
      Except.error (badURLError rawurl1)
    else
      Except.ok { c with url := if hasSuffix rawurl1 "/" then rawurl1 else rawurl1 ++ "/" }

/-- `SetErrorLog` (lines 166-171); the argument is whether a non-nil
logger is supplied. -/
def SetErrorLog (loggerNonNil : Bool) : OptionFunc := fun c =>
  Except.ok { c with errorlog := loggerNonNil }

/-- `SetTraceLog` (lines 175-180). -/
def SetTraceLog (loggerNonNil : Bool) : OptionFunc := fun c =>
  Except.ok { c with tracelog := loggerNonNil }

/-! ## HTTP request execution (src/infinity.go lines 182-282) -/

structure Request where
  method : String
  url : String
  headers : List (String × String)
  body : Option (List Byte)
deriving DecidableEq, Repr

structure Response where
  statusCode : Nat
  headers : List (String × String)
  body : List Byte
deriving DecidableEq, Repr

/-- The two log sinks of the client. -/
inductive Sink where
  | errorSink
  | traceSink
deriving DecidableEq, Repr

structure LogEvent where
  sink : Sink
  msg : String
deriving DecidableEq, Repr

/-- Modelled from the Go standard library `net/http.StatusText`. -/
def statusText : Nat → String
  | 100 => "Continue"
  | 101 => "Switching Protocols"
  | 102 => "Processing"
  | 103 => "Early Hints"
  | 200 => "OK"
  | 201 => "Created"
  | 202 => "Accepted"
  | 203 => "Non-Authoritative Information"
  | 204 => "No Content"
  | 205 => "Reset Content"
  | 206 => "Partial Content"
  | 207 => "Multi-Status"
  | 208 => "Already Reported"
  | 226 => "IM Used"
  | 300 => "Multiple Choices"
  | 301 => "Moved Permanently"
  | 302 => "Found"
  | 303 => "See Other"
  | 304 => "Not Modified"
  | 305 => "Use Proxy"
  | 307 => "Temporary Redirect"
  | 308 => "Permanent Redirect"
  | 400 => "Bad Request"
  | 401 => "Unauthorized"
  | 402 => "Payment Required"
  | 403 => "Forbidden"
  | 404 => "Not Found"
  | 405 => "Method Not Allowed"
  | 406 => "Not Acceptable"
  | 407 => "Proxy Authentication Required"
  | 408 => "Request Timeout"
  | 409 => "Conflict"
  | 410 => "Gone"
  | 411 => "Length Required"
  | 412 => "Precondition Failed"
  | 413 => "Request Entity Too Large"
  | 414 => "Request URI Too Long"
  | 415 => "Unsupported Media Type"
  | 416 => "Requested Range Not Satisfiable"
  | 417 => "Expectation Failed"
  | 418 => "I" ++ String.singleton (Char.ofNat 39) ++ "m a teapot"
  | 421 => "Misdirected Request"
  | 422 => "Unprocessable Entity"
  | 423 => "Locked"
  | 424 => "Failed Dependency"
  | 425 => "Too Early"
  | 426 => "Upgrade Required"
  | 428 => "Precondition Required"
  | 429 => "Too Many Requests"
  | 431 => "Request Header Fields Too Large"
  | 451 => "Unavailable For Legal Reasons"
  | 500 => "Internal Server Error"
  | 501 => "Not Implemented"
  | 502 => "Bad Gateway"
  | 503 => "Service Unavailable"
  | 504 => "Gateway Timeout"
  | 505 => "HTTP Version Not Supported"
  | 506 => "Variant Also Negotiates"
  | 507 => "Insufficient Storage"
  | 508 => "Loop Detected"
  | 510 => "Not Extended"
  | 511 => "Network Authentication Required"
  | _ => ""

def renderHeaders (hs : List (String × String)) : String :=
  String.join (hs.map (fun p => p.1 ++ ": " ++ p.2 ++ "\n"))

def renderBytes (bs : List Byte) : String :=
  String.join (bs.map (fun b => toString b ++ " "))

/-- Serialization of `httputil.DumpRequestOut(req, false)`: request line and
headers, no body (injective rendering standing in for the wire format). -/
def dumpRequestString (req : Request) : String :=
  req.method ++ " " ++ req.url ++ "\n" ++ renderHeaders req.headers

/-- Serialization of `httputil.DumpResponse(resp, true)`: status line,
headers and full body. -/
def dumpResponseString (resp : Response) : String :=
  "HTTP/1.1 " ++ toString resp.statusCode ++ " " ++ statusText resp.statusCode ++ "\n"
    ++ renderHeaders resp.headers ++ "\n" ++ renderBytes resp.body

/-- `dumpRequest` (lines 183-190): full request to the trace log when one
is configured. -/
def dumpRequest (c : Client) (req : Request) : List LogEvent :=
  if c.tracelog then [{ sink := Sink.traceSink, msg := dumpRequestString req }] else []

/-- `dumpResponse` (lines 193-200): full response to the trace log when one
is configured. -/
def dumpResponse (c : Client) (resp : Response) : List LogEvent :=
  if c.tracelog then [{ sink := Sink.traceSink, msg := dumpResponseString resp }] else []

/-- `handleError` (lines 205-218): classifies non-2xx responses; dumps the
response and the message to the error log when one is configured. -/
def handleError (c : Client) (resp : Response) : Option Error × List LogEvent :=
  if resp.statusCode < 200 ∨ 300 ≤ resp.statusCode then
    let msg := "Unexpected status code: " ++ toString resp.statusCode
      ++ " (" ++ statusText resp.statusCode ++ ")"
    (some { id := "http_error", details := msg },
      if c.errorlog then
        [{ sink := Sink.errorSink, msg := dumpResponseString resp },
         { sink := Sink.errorSink, msg := msg }]
      else [])
  else (none, [])

/-- The transport oracle: `c.c.Do`, returning either an opaque network
error or a response. -/
def Transport := Request → Except Error Response

/-- The JSON decoding oracle: `json.NewDecoder(resp.Body).Decode(result)`
may partially fill the result value and report an opaque error. -/
def Decoder (α : Type) := List Byte → α → α × Option Error

/-- `rawurl` after the query-parameter branch of `do` (lines 224-230). -/
def fullPath (rawurl : String) (params : List (String × String)) : String :=
  if 0 < params.length then rawurl ++ "?" ++ encodeValues params else rawurl

/-- Request construction in `do` (lines 232-241): headers `Accept` and the
auth header always; content-type and the caller-supplied content length
exactly when a body is present. -/
def buildRequest (c : Client) (method rawurl : String) (params : List (String × String))
    (body : Option (List Byte)) (bodyLength : Nat) : Request :=
  { method := method
    url := c.url ++ fullPath rawurl params
    headers := [("Accept", "application/json"), (AuthHeader, c.key)] ++
      (match body with
       | some _ => [(ContentTypeHeader, GzipContentType), (ContentLengthHeader, toString bodyLength)]
       | none => [])
    body := body }

/-- Outcome of one `do` run: the returned error, the requests handed to the
transport, the log events, and the final state of the decode target. -/
structure DoResult (α : Type) where
  err : Option Error
  reqs : List Request
  logs : List LogEvent
  result : α
deriving Repr

/-- `do` (lines 223-282), named `doReq` (`do` is a Lean keyword). Timing
values in the start/end trace lines are elided (real time). The
`io.Writer` branch of the result dispatch is not modelled: `Query` and
`Upload` always pass a typed (JSON-decoded) result. -/
def doReq {α : Type} (c : Client) (tr : Transport) (decode : Decoder α)
    (method rawurl : String) (params : List (String × String))
    (body : Option (List Byte)) (bodyLength : Nat) (init : α) : DoResult α :=
  let req := buildRequest c method rawurl params body bodyLength
  let logs0 := dumpRequest c req ++
    (if c.tracelog then [{ sink := Sink.traceSink, msg := "Start request " ++ fullPath rawurl params }] else [])
  match tr req with
  | Except.error e =>
    { err := some e, reqs := [req]
      logs := logs0 ++ (if c.tracelog then [{ sink := Sink.traceSink, msg := "End request " ++ fullPath rawurl params }] else [])
      result := init }
  | Except.ok resp =>
    let logs1 := logs0 ++ (if c.tracelog then [{ sink := Sink.traceSink, msg := "End request " ++ fullPath rawurl params }] else [])
    let he := handleError c resp
    match he.1 with
    | some e =>
      { err := some e, reqs := [req], logs := logs1 ++ he.2, result := init }
    | none =>
      let logs2 := logs1 ++ dumpResponse c resp
      let dres := decode resp.body init
      match dres.2 with
      | some e =>
        { err := some e, reqs := [req]
          logs := logs2 ++ (if c.errorlog then [{ sink := Sink.errorSink, msg := dumpResponseString resp }] else [])
          result := dres.1 }
      | none => { err := none, reqs := [req], logs := logs2, result := dres.1 }

/-! ## Response schemas and public operations (src/infinity.go lines 284-350) -/

/-- `Common` (lines 286-290). `StatusCode` is `float32` in Go; the numeric
payload takes no part in any proved property, so it is carried as `Int`. -/
structure Common where
  status : String
  statusCode : Int
  error : String
deriving DecidableEq, Repr

/-- `QueryResponse` (lines 293-298); `Classifiers` as an association list. -/
structure QueryResponse where
  common : Common
  generalScore : Int
  confirmCode : String
  classifiers : List (String × Int)
deriving DecidableEq, Repr

/-- `UploadResponse` (lines 300-302). -/
structure UploadResponse where
  common : Common
deriving DecidableEq, Repr

/-- The Go `map[string]QueryResponse`, as an association list; `none` in an
`OpResult` models a nil map. -/
abbrev QMap := List (String × QueryResponse)

abbrev UMap := List (String × UploadResponse)

/-- Outcome of a public operation: the returned map (`none` = Go nil map),
the returned error, and the executor effects. -/
structure OpResult (α : Type) where
  resp : Option α
  err : Option Error
  reqs : List Request
  logs : List LogEvent
deriving Repr

def missingArgHash : Error := { id := "missing_arg", details := "hash is required" }

def missingArgCode : Error := { id := "missing_arg", details := "Confirmation code is required" }

def missingArgData : Error := { id := "missing_arg", details := "Data is required" }

/-- `Query` (lines 309-319). -/
def Query (c : Client) (tr : Transport) (decode : Decoder QMap)
    (classifiers : String) (hash : List String) : OpResult QMap :=
  if hash.length = 0 then
    { resp := none, err := some missingArgHash, reqs := [], logs := [] }
  else
    let classifiers1 := if classifiers = "" then "all" else classifiers
    let r := doReq c tr decode "GET" "q" [("c", classifiers1), ("h", joinComma hash)] none 0 []
    { resp := some r.result, err := r.err, reqs := r.reqs, logs := r.logs }

/-- `Upload` (lines 322-340). The data stream is `none` for a nil reader,
`some bytes` otherwise. Lines 331-338: the gzip writer is created over the
buffer, the data copied in, and `do` is called with the buffer's current
contents and length; the `defer gw.Close()` of line 333 runs only after
`do` has returned, so the finalizing bytes never reach the transport. -/
def Upload (c : Client) (tr : Transport) (decode : Decoder UMap)
    (confirmCode : String) (data : Option (List Byte)) : OpResult UMap :=
  if confirmCode = "" then
    { resp := none, err := some missingArgCode, reqs := [], logs := [] }
  else
    match data with
    | none => { resp := none, err := some missingArgData, reqs := [], logs := [] }
    | some bytes =>
      let gw := gzipCopy GzipWriter.new bytes
      let r := doReq c tr decode "PUT" ("u/" ++ confirmCode) [] (some gw.out) gw.out.length []
      { resp := some r.result, err := r.err, reqs := r.reqs, logs := r.logs }

/-- `UploadFile` (lines 343-350): `os.Open` is the oracle `openFile`; an
open error is returned verbatim with a nil map and no request issued. -/
def UploadFile (c : Client) (tr : Transport) (decode : Decoder UMap)
    (openFile : String → Except Error (List Byte)) (confirmCode path : String) : OpResult UMap :=
  match openFile path with
  | Except.error e => { resp := none, err := some e, reqs := [], logs := [] }
  | Except.ok bytes => Upload c tr decode confirmCode (some bytes)

/-! ## Instances and small helpers used by the theorems -/

instance {ε α : Type} [DecidableEq ε] [DecidableEq α] : DecidableEq (Except ε α) := by
  intro x y
  cases x <;> cases y
  case error.error a b =>
    exact if h : a = b then Decidable.isTrue (by rw [h]) else Decidable.isFalse (by intro hc; cases hc; exact h rfl)
  case ok.ok a b =>
    exact if h : a = b then Decidable.isTrue (by rw [h]) else Decidable.isFalse (by intro hc; cases hc; exact h rfl)
  case error.ok a b => exact Decidable.isFalse (by intro hc; cases hc)
  case ok.error a b => exact Decidable.isFalse (by intro hc; cases hc)

/-- The value of a header in a request's header list. -/
def lookupHeader (k : String) (hs : List (String × String)) : Option String :=
  (hs.find? (fun p => p.1 == k)).map (fun p => p.2)

/-! ## Concrete fixtures used in counterexamples and witnesses -/

def cquiet : Client :=
  { key := "k", url := DefaultURL, errorlog := false, tracelog := false, customHTTP := false }

def cTraceOnly : Client := { cquiet with tracelog := true }

def cErrOnly : Client := { cquiet with errorlog := true }

def r200 : Response := { statusCode := 200, headers := [], body := [] }

def r299 : Response := { statusCode := 299, headers := [], body := [] }

def r404 : Response := { statusCode := 404, headers := [], body := [] }

def tr200 : Transport := fun _ => Except.ok r200

def tr404 : Transport := fun _ => Except.ok r404

def decNopQ : Decoder QMap := fun _ m => (m, none)

def decNopU : Decoder UMap := fun _ m => (m, none)

/-- UTF-8 bytes of `"hello"`. -/
def helloBytes : List Byte := [104, 101, 108, 108, 111]

/-- The run of `Upload("CODE1", "hello")` against a transport that answers
200 with an empty body. -/
def uploadHelloRun : OpResult UMap := Upload cquiet tr200 decNopU "CODE1" (some helloBytes)

/-- The error value `handleError` produces for a 404 response. -/
def e404 : Error := { id := "http_error", details := "Unexpected status code: 404 (Not Found)" }

/-- The `do` run of a traced client (no error log) against a 404. -/
def doRun404 : DoResult UMap := doReq cTraceOnly tr404 decNopU "PUT" "u/CODE1" [] none 0 []

/-- The client produced by `SetURL "http://e.com"` on the default client. -/
def cEcom : Client := { defaultClient with url := "http://e.com/" }

/-! ## Shared helper lemmas -/

theorem applyOptions_append (l1 l2 : List OptionFunc) (c : Client) :
    applyOptions (l1 ++ l2) c =
      match applyOptions l1 c with
      | Except.error e => Except.error e
      | Except.ok c1 => applyOptions l2 c1 := by
  induction l1 generalizing c with
  | nil => rfl
  | cons o rest ih =>
    simp only [List.cons_append, applyOptions]
    cases o c with
    | error e => rfl
    | ok c1 => exact ih c1

/-- `do` hands exactly one request to the transport, whatever the result. -/
theorem doReq_reqs {α : Type} (c : Client) (tr : Transport) (decode : Decoder α)
    (method rawurl : String) (params : List (String × String))
    (body : Option (List Byte)) (bodyLength : Nat) (init : α) :
    (doReq c tr decode method rawurl params body bodyLength init).reqs
      = [buildRequest c method rawurl params body bodyLength] := by
  unfold doReq
  cases htr : tr (buildRequest c method rawurl params body bodyLength) with
  | error e => simp [htr]
  | ok resp =>
    cases he : (handleError c resp).1 with
    | some e => simp [htr, he]
    | none =>
      cases hd : (decode resp.body init).2 with
      | some e => simp [htr, he, hd]
      | none => simp [htr, he, hd]

/-! ## Claim theorems -/

set_option maxRecDepth 8192 in
/-- C1: the claim states that the Content-Length sent with the PUT equals
the byte count of the finalized gzip buffer, the stream being finalized
before its length is read. The code violates this: `defer gw.Close()`
finalizes only after `do` returns, so `buf.Len()` is read on the
unfinalized buffer. At `Upload("CODE1", "hello")` the request carries
`Content-Length: 10` (the bare gzip header), while the finalized
compressed buffer has 28 bytes. -/
theorem upload_contentLength_unfinalized :
    uploadHelloRun.reqs.map (fun r => lookupHeader ContentLengthHeader r.headers) = [some "10"]
    ∧ (gzipBytes helloBytes).length = 28
    ∧ toString (gzipBytes helloBytes).length ≠ "10" := by decide

set_option maxRecDepth 8192 in
/-- C2: the claim states the gzip round-trip law for the body handed to
the transport. The code violates it: because of the deferred `Close`, the
body handed over at `Upload("CODE1", "hello")` is only the 10-byte gzip
header, which does not decompress at all — while the finalized buffer
(second conjunct) does decompress back to `"hello"`, showing the adapter
itself satisfies the law once finalized. -/
theorem upload_body_gunzip_fails :
    uploadHelloRun.reqs.map (fun r => r.body.map gunzip) = [some none]
    ∧ gunzip (gzipBytes helloBytes) = some helloBytes := by decide

/-- C3 counterexample: status 299 lies outside the claimed interval
`[200,299)`, yet `handleError` classifies it as success (no error). The
code's success interval is `[200,300)`. -/
theorem handleError_299_no_error :
    (handleError cquiet r299).1 = none
    ∧ ¬ (200 ≤ r299.statusCode ∧ r299.statusCode < 299) := by decide

/-- C3 (amended to the interval `[200,300)`): `handleError` reports no
error exactly on status codes in `[200,300)`; any error it reports has id
`http_error` and a detail string containing the decimal status code and
its standard reason phrase. -/
theorem handleError_http_error_iff (c : Client) (resp : Response) :
    ((handleError c resp).1 = none ↔ 200 ≤ resp.statusCode ∧ resp.statusCode < 300)
    ∧ (∀ e, (handleError c resp).1 = some e →
        e.id = "http_error"
        ∧ (∃ p q, e.details.data = p ++ (toString resp.statusCode).data ++ q)
        ∧ (∃ p q, e.details.data = p ++ (statusText resp.statusCode).data ++ q)) := by
  unfold handleError
  by_cases h : resp.statusCode < 200 ∨ 300 ≤ resp.statusCode
  · rw [if_pos h]
    constructor
    · exact iff_of_false (by simp) (by omega)
    · intro e he
      simp only [Option.some.injEq] at he
      subst he
      refine ⟨rfl,
        ⟨"Unexpected status code: ".data,
          (" (" ++ statusText resp.statusCode ++ ")").data, ?_⟩,
        ⟨("Unexpected status code: " ++ toString resp.statusCode ++ " (").data,
          ")".data, ?_⟩⟩ <;>
        simp [String.data_append, List.append_assoc]
  · rw [if_neg h]
    exact ⟨iff_of_true rfl (by omega), by intro e he; simp at he⟩

/-- C3 witness: the amended theorem applied at a 404 response. -/
theorem handleError_http_error_iff_witness :
    e404.id = "http_error"
    ∧ (∃ p q, e404.details.data = p ++ (toString r404.statusCode).data ++ q)
    ∧ (∃ p q, e404.details.data = p ++ (statusText r404.statusCode).data ++ q) :=
  (handleError_http_error_iff cquiet r404).2 e404 (by decide)

/-- C5: construction halts at the first failing option, and if every
option succeeded but the key is still empty, `New` fails with
`missing_credentials` — whatever the other options were. -/
theorem New_missing_credentials :
    (∀ (opts : List OptionFunc) (c : Client),
        applyOptions opts defaultClient = Except.ok c → c.key = "" →
        New opts = Except.error ErrMissingCredentials)
    ∧ (∀ (pre post : List OptionFunc) (o : OptionFunc) (c : Client) (e : Error),
        applyOptions pre defaultClient = Except.ok c → o c = Except.error e →
        New (pre ++ o :: post) = Except.error e) := by
  constructor
  · intro opts c h hk
    unfold New
    rw [h]
    simp [hk]
  · intro pre post o c e h ho
    unfold New
    rw [applyOptions_append, h]
    simp only [applyOptions, ho]

/-- C5 witness: no options at all, and a failing `SetKey ""` followed by a
further option that is never reached. -/
theorem New_missing_credentials_witness :
    New [] = Except.error ErrMissingCredentials
    ∧ New [SetKey "", SetHTTPClient true] = Except.error ErrMissingCredentials :=
  ⟨New_missing_credentials.1 [] defaultClient rfl rfl,
   New_missing_credentials.2 [] [SetHTTPClient true] (SetKey "") defaultClient
      ErrMissingCredentials rfl (by decide)⟩

/-- C8: argument validation precedes any network activity — `Query` with
zero hashes, `Upload` with an empty confirmation code or a nil data
stream, and `UploadFile` with an empty confirmation code (once the file
opens) all return `missing_arg` with an empty request list. -/
theorem validation_before_network (c : Client) (tr : Transport)
    (decq : Decoder QMap) (decu : Decoder UMap) (cls code path : String)
    (data : Option (List Byte)) (openF : String → Except Error (List Byte))
    (bytes : List Byte) (hcode : code ≠ "") (hopen : openF path = Except.ok bytes) :
    Query c tr decq cls [] = { resp := none, err := some missingArgHash, reqs := [], logs := [] }
    ∧ Upload c tr decu "" data = { resp := none, err := some missingArgCode, reqs := [], logs := [] }
    ∧ Upload c tr decu code none = { resp := none, err := some missingArgData, reqs := [], logs := [] }
    ∧ UploadFile c tr decu openF "" path
        = { resp := none, err := some missingArgCode, reqs := [], logs := [] } := by
  refine ⟨rfl, rfl, ?_, ?_⟩
  · unfold Upload
    rw [if_neg hcode]
  · unfold UploadFile
    rw [hopen]
    rfl

/-- C8 witness. -/
theorem validation_before_network_witness :
    Query cquiet tr200 decNopQ "" [] = { resp := none, err := some missingArgHash, reqs := [], logs := [] }
    ∧ Upload cquiet tr200 decNopU "" none = { resp := none, err := some missingArgCode, reqs := [], logs := [] }
    ∧ Upload cquiet tr200 decNopU "CODE1" none = { resp := none, err := some missingArgData, reqs := [], logs := [] }
    ∧ UploadFile cquiet tr200 decNopU (fun _ => Except.ok []) "" "f"
        = { resp := none, err := some missingArgCode, reqs := [], logs := [] } :=
  validation_before_network cquiet tr200 decNopQ decNopU "" "CODE1" "f" none
    (fun _ => Except.ok []) [] (by decide) rfl

/-- C9: every `Query` with at least one hash issues exactly one GET to the
fixed path `q`, with the classifiers value (defaulted to `all` when empty)
under key `c` and the comma-joined hashes as a single parameter under key
`h`, in the sorted percent-encoded form of `url.Values.Encode`. -/
theorem query_request_shape (c : Client) (tr : Transport) (dec : Decoder QMap)
    (cls : String) (hashes : List String) (h : hashes ≠ []) :
    (Query c tr dec cls hashes).reqs =
      [{ method := "GET"
         url := c.url ++ "q?" ++ "c=" ++ queryEscape (if cls = "" then "all" else cls)
            ++ "&" ++ "h=" ++ queryEscape (joinComma hashes)
         headers := [("Accept", "application/json"), (AuthHeader, c.key)]
         body := none }] := by
  have hch : strLe "c" "h" = true := by decide
  have hqc : queryEscape "c" = "c" := by decide
  have hqh : queryEscape "h" = "h" := by decide
  have hm1 : ∀ x : String, "q" ++ ("?" ++ x) = "q?" ++ x := by
    intro x
    rw [← String.append_assoc]
    rfl
  have hm2 : ∀ x : String, "c" ++ ("=" ++ x) = "c=" ++ x := by
    intro x
    rw [← String.append_assoc]
    rfl
  have hm3 : ∀ x : String, "h" ++ ("=" ++ x) = "h=" ++ x := by
    intro x
    rw [← String.append_assoc]
    rfl
  have hm4 : ∀ x : String, "q?" ++ ("c=" ++ x) = "q?c=" ++ x := by
    intro x
    rw [← String.append_assoc]
    rfl
  have hm5 : ∀ x : String, "&" ++ ("h=" ++ x) = "&h=" ++ x := by
    intro x
    rw [← String.append_assoc]
    rfl
  unfold Query
  rw [if_neg (by simpa [List.length_eq_zero] using h)]
  dsimp only
  rw [doReq_reqs]
  unfold buildRequest fullPath encodeValues sortByKey insertByKey
  simp [hch, hqc, hqh, joinAmp, String.append_assoc, hm1, hm2, hm3, hm4, hm5]

/-- C9 witness: `Query("", ["abc123"])` issues
`GET {base}/q?c=all&h=abc123`. -/
theorem query_request_shape_witness :
    (Query cquiet tr200 decNopQ "" ["abc123"]).reqs =
      [{ method := "GET"
         url := "https://api.cylance.com/apiv2/q?c=all&h=abc123"
         headers := [("Accept", "application/json"), ("X-IAUTH", "k")]
         body := none }] := by
  rw [query_request_shape cquiet tr200 decNopQ "" ["abc123"] (by decide)]
  decide

/-! ## Helper lemmas for the `SetURL` claims -/

theorem hasSuffix_append_slash (s : String) : hasSuffix (s ++ "/") "/" = true := by
  unfold hasSuffix
  rw [String.data_append, List.isSuffixOf_iff_suffix]
  exact List.suffix_append _ _

theorem ne_empty_of_hasSuffix_slash (s : String) (h : hasSuffix s "/" = true) : s ≠ "" := by
  intro he
  rw [he] at h
  exact absurd h (by decide)

theorem containsCTL_append_slash (s : String) :
    containsCTL (s ++ "/") = containsCTL s := by
  have h1 : ("/" : String).data = ['/'] := rfl
  unfold containsCTL
  rw [String.data_append, h1, List.any_append]
  simp

/-- Appending to the input does not change the scheme found by the scan;
the appended text lands in the remainder. -/
theorem schemeScan_append (extra : List Char) :
    ∀ (cs : List Char) (first : Bool) (s r : List Char),
      schemeScan first cs = Except.ok (some (s, r)) →
      schemeScan first (cs ++ extra) = Except.ok (some (s, r ++ extra)) := by
  intro cs
  induction cs with
  | nil =>
    intro first s r hscan
    simp [schemeScan] at hscan
  | cons ch cs ih =>
    intro first s r hscan
    rw [List.cons_append]
    by_cases ha : isSchemeAlpha ch = true
    · rw [schemeScan, if_pos ha] at hscan ⊢
      cases hres : schemeScan false cs with
      | error e =>
        rw [hres] at hscan
        simp at hscan
      | ok o =>
        cases o with
        | none =>
          rw [hres] at hscan
          simp at hscan
        | some pr =>
          obtain ⟨s1, r1⟩ := pr
          rw [hres] at hscan
          simp only [Except.ok.injEq, Option.some.injEq, Prod.mk.injEq] at hscan
          obtain ⟨hs, hr⟩ := hscan
          rw [ih false s1 r1 hres]
          simp only [hs, hr]
    · by_cases hx : isSchemeExtra ch = true
      · rw [schemeScan, if_neg ha, if_pos hx] at hscan ⊢
        cases first with
        | true => simp at hscan
        | false =>
          simp only [Bool.false_eq_true, if_false] at hscan ⊢
          cases hres : schemeScan false cs with
          | error e =>
            rw [hres] at hscan
            simp at hscan
          | ok o =>
            cases o with
            | none =>
              rw [hres] at hscan
              simp at hscan
            | some pr =>
              obtain ⟨s1, r1⟩ := pr
              rw [hres] at hscan
              simp only [Except.ok.injEq, Option.some.injEq, Prod.mk.injEq] at hscan
              obtain ⟨hs, hr⟩ := hscan
              rw [ih false s1 r1 hres]
              simp only [hs, hr]
      · by_cases hc : ch = ':'
        · rw [schemeScan, if_neg ha, if_neg hx, if_pos hc] at hscan ⊢
          cases first with
          | true => simp at hscan
          | false =>
            simp only [Bool.false_eq_true, if_false] at hscan ⊢
            simp only [Except.ok.injEq, Option.some.injEq, Prod.mk.injEq] at hscan
            obtain ⟨hs, hr⟩ := hscan
            rw [← hs, ← hr]
        · rw [schemeScan, if_neg ha, if_neg hx, if_neg hc] at hscan
          simp at hscan

/-- Appending a slash does not change a successful parse with a non-empty
scheme. -/
theorem urlParse_append_slash (s : String) (u : URL)
    (h : urlParse s = Except.ok u) (hne : u.scheme ≠ "") :
    urlParse (s ++ "/") = Except.ok u := by
  unfold urlParse at h ⊢
  by_cases hctl : containsCTL s = true
  · rw [if_pos hctl] at h
    simp at h
  · rw [if_neg hctl] at h
    rw [if_neg (by rw [containsCTL_append_slash]; exact hctl)]
    rw [String.data_append]
    cases hsc : schemeScan true s.data with
    | error e =>
      rw [hsc] at h
      simp at h
    | ok o =>
      cases o with
      | none =>
        rw [hsc] at h
        simp only [Except.ok.injEq] at h
        rw [← h] at hne
        exact absurd rfl hne
      | some pr =>
        obtain ⟨sch, rest⟩ := pr
        rw [hsc] at h
        rw [schemeScan_append ("/" : String).data s.data true sch rest hsc]
        exact h

/-- C6: a non-empty URL that parses but whose scheme is neither `http`
nor `https` makes `SetURL` fail with the `bad_url` error, and makes any
client construction that reaches this option fail with it too. -/
theorem SetURL_bad_scheme (raw : String) (u : URL) (c : Client)
    (hraw : raw ≠ "") (hp : urlParse raw = Except.ok u)
    (h1 : u.scheme ≠ "http") (h2 : u.scheme ≠ "https") :
    SetURL raw c = Except.error (badURLError raw)
    ∧ (badURLError raw).id = "bad_url"
    ∧ ∀ (pre post : List OptionFunc) (c0 : Client),
        applyOptions pre defaultClient = Except.ok c0 →
        New (pre ++ SetURL raw :: post) = Except.error (badURLError raw) := by
  have hs : ∀ c1 : Client, SetURL raw c1 = Except.error (badURLError raw) := by
    intro c1
    unfold SetURL
    simp only [if_neg hraw]
    simp only [hp]
    rw [if_pos (And.intro h1 h2)]
  refine ⟨hs c, rfl, ?_⟩
  intro pre post c0 hpre
  unfold New
  rw [applyOptions_append, hpre]
  simp only [applyOptions, hs c0]

/-- C6 witness: `ftp://example.com` parses with scheme `ftp`. -/
theorem SetURL_bad_scheme_witness :
    SetURL "ftp://example.com" defaultClient = Except.error (badURLError "ftp://example.com")
    ∧ New [SetURL "ftp://example.com"] = Except.error (badURLError "ftp://example.com") := by
  have h := SetURL_bad_scheme "ftp://example.com" { scheme := "ftp" } defaultClient
    (by decide) (by decide) (by decide) (by decide)
  exact ⟨h.1, h.2.2 [] [] defaultClient rfl⟩

/-- C7 counterexample: `https://a//` is a valid https URL accepted by
`SetURL`; it is stored unchanged and ends with two separators, so the
stored base URL does not end with exactly one trailing separator. -/
theorem SetURL_keeps_double_separator :
    SetURL "https://a//" defaultClient
        = Except.ok { defaultClient with url := "https://a//" }
    ∧ hasSuffix "https://a//" "//" = true
    ∧ hasSuffix "https://a//" "/" = true := by
  decide

/-- C7 (amended from "exactly one" to "at least one"): every URL accepted
by `SetURL` is stored ending with a separator; a URL without a trailing
separator gets exactly one appended, a URL already ending with one is
stored unchanged, and re-applying `SetURL` to the stored URL succeeds and
leaves it unchanged (idempotence). -/
theorem SetURL_trailing_separator (raw : String) (c c1 : Client)
    (h : SetURL raw c = Except.ok c1) :
    hasSuffix c1.url "/" = true
    ∧ (raw ≠ "" → hasSuffix raw "/" = false → c1.url = raw ++ "/")
    ∧ (raw ≠ "" → hasSuffix raw "/" = true → c1.url = raw)
    ∧ ∃ c2, SetURL c1.url c1 = Except.ok c2 ∧ c2.url = c1.url := by
  unfold SetURL at h
  by_cases hraw : raw = ""
  · simp only [if_pos hraw] at h
    simp only [show urlParse DefaultURL = Except.ok { scheme := "https" } from by decide] at h
    rw [if_neg (by decide)] at h
    rw [if_pos (by decide)] at h
    simp only [Except.ok.injEq] at h
    have hurl : c1.url = DefaultURL := by rw [← h]
    refine ⟨?_, ?_, ?_, ?_⟩
    · rw [hurl]
      decide
    · intro hne
      exact absurd hraw hne
    · intro hne
      exact absurd hraw hne
    · refine ⟨{ c1 with url := DefaultURL }, ?_, ?_⟩
      · rw [hurl]
        unfold SetURL
        rw [if_neg (by decide)]
        simp only [show urlParse DefaultURL = Except.ok { scheme := "https" } from by decide]
        rw [if_neg (by decide)]
        rw [if_pos (by decide)]
      · rw [hurl]
  · simp only [if_neg hraw] at h
    cases hp : urlParse raw with
    | error e =>
      simp only [hp] at h
      cases h
    | ok u =>
      simp only [hp] at h
      by_cases hbad : u.scheme ≠ "http" ∧ u.scheme ≠ "https"
      · rw [if_pos hbad] at h
        simp at h
      · rw [if_neg hbad] at h
        simp only [Except.ok.injEq] at h
        have hschemene : u.scheme ≠ "" := by
          push_neg at hbad
          by_cases hhttp : u.scheme = "http"
          · rw [hhttp]
            decide
          · rw [hbad hhttp]
            decide
        by_cases hsuf : hasSuffix raw "/" = true
        · rw [if_pos hsuf] at h
          have hurl : c1.url = raw := by rw [← h]
          refine ⟨?_, ?_, ?_, ?_⟩
          · rw [hurl]
            exact hsuf
          · intro _ hfalse
            rw [hsuf] at hfalse
            cases hfalse
          · intro _ _
            exact hurl
          · refine ⟨{ c1 with url := raw }, ?_, ?_⟩
            · rw [hurl]
              unfold SetURL
              rw [if_neg hraw]
              simp only [hp]
              rw [if_neg hbad]
              rw [if_pos hsuf]
            · rw [hurl]
        · rw [if_neg hsuf] at h
          have hsuf2 : hasSuffix (raw ++ "/") "/" = true := hasSuffix_append_slash raw
          have hne2 : raw ++ "/" ≠ "" := ne_empty_of_hasSuffix_slash _ hsuf2
          have hurl : c1.url = raw ++ "/" := by rw [← h]
          refine ⟨?_, ?_, ?_, ?_⟩
          · rw [hurl]
            exact hsuf2
          · intro _ _
            exact hurl
          · intro _ htrue
            rw [htrue] at hsuf
            exact absurd rfl hsuf
          · refine ⟨{ c1 with url := raw ++ "/" }, ?_, ?_⟩
            · rw [hurl]
              unfold SetURL
              rw [if_neg hne2]
              simp only [urlParse_append_slash raw u hp hschemene]
              rw [if_neg hbad]
              rw [if_pos hsuf2]
            · rw [hurl]

/-- C7 witness: the amended theorem at `http://e.com`, which gains exactly
one separator and is then a fixed point of `SetURL`. -/
theorem SetURL_trailing_separator_witness :
    hasSuffix cEcom.url "/" = true
    ∧ ("http://e.com" ≠ "" → hasSuffix "http://e.com" "/" = false → cEcom.url = "http://e.com" ++ "/")
    ∧ ("http://e.com" ≠ "" → hasSuffix "http://e.com" "/" = true → cEcom.url = "http://e.com")
    ∧ ∃ c2, SetURL cEcom.url cEcom = Except.ok c2 ∧ c2.url = cEcom.url :=
  SetURL_trailing_separator "http://e.com" defaultClient cEcom (by decide)

/-- C10: once validation passes, `Query` and `Upload` always return a
non-nil (possibly empty or partially decoded) map, whatever the executor
outcome; only a `missing_arg` validation failure returns a nil map. -/
theorem result_map_non_nil_after_validation (c : Client) (tr : Transport)
    (decq : Decoder QMap) (decu : Decoder UMap) (cls code : String)
    (hashes : List String) (data : Option (List Byte)) :
    (hashes ≠ [] → (Query c tr decq cls hashes).resp ≠ none)
    ∧ (hashes = [] → (Query c tr decq cls hashes).resp = none
        ∧ (Query c tr decq cls hashes).err = some missingArgHash)
    ∧ (code ≠ "" → data ≠ none → (Upload c tr decu code data).resp ≠ none)
    ∧ ((code = "" ∨ data = none) → (Upload c tr decu code data).resp = none
        ∧ ∃ e, (Upload c tr decu code data).err = some e ∧ e.id = "missing_arg") := by
  refine ⟨?_, ?_, ?_, ?_⟩
  · intro hne
    unfold Query
    rw [if_neg (by simpa [List.length_eq_zero] using hne)]
    simp
  · intro he
    subst he
    exact ⟨rfl, rfl⟩
  · intro hc hd
    unfold Upload
    rw [if_neg hc]
    cases data with
    | none => exact absurd rfl hd
    | some bytes => simp
  · intro hor
    unfold Upload
    by_cases hc : code = ""
    · rw [if_pos hc]
      exact ⟨rfl, missingArgCode, rfl, rfl⟩
    · rw [if_neg hc]
      cases data with
      | none => exact ⟨rfl, missingArgData, rfl, rfl⟩
      | some bytes =>
        rcases hor with h | h
        · exact absurd h hc
        · simp at h

/-- C4 counterexample: a client with a trace sink configured but no error
sink receives a 404; the executor detects the non-success status, yet the
full response dump is never written to the trace sink (the trace sink only
gets the request dump and the start/end lines; the response dump of
`handleError` goes to the error sink, which is absent here). -/
theorem error_response_not_written_to_trace :
    cTraceOnly.tracelog = true
    ∧ (r404.statusCode < 200 ∨ 300 ≤ r404.statusCode)
    ∧ doRun404.err.isSome = true
    ∧ ({ sink := Sink.traceSink, msg := dumpResponseString r404 : LogEvent } ∉ doRun404.logs) := by
  decide

/-- C4 (amended: the dump goes to the error sink, not the trace sink):
whenever the executor receives a response with a non-success status code
and an error sink is configured, the full response dump is written to the
error sink — regardless of whether tracing is active. -/
theorem error_response_dumped_to_error_sink {α : Type} (c : Client) (tr : Transport)
    (decode : Decoder α) (method rawurl : String) (params : List (String × String))
    (body : Option (List Byte)) (bodyLength : Nat) (init : α) (resp : Response)
    (htr : tr (buildRequest c method rawurl params body bodyLength) = Except.ok resp)
    (hstatus : resp.statusCode < 200 ∨ 300 ≤ resp.statusCode)
    (herr : c.errorlog = true) :
    ({ sink := Sink.errorSink, msg := dumpResponseString resp : LogEvent })
      ∈ (doReq c tr decode method rawurl params body bodyLength init).logs := by
  unfold doReq
  simp only [htr]
  unfold handleError
  rw [if_pos hstatus]
  simp [herr, List.mem_append]

/-- C4 witness: the amended theorem at a 404 with only the error sink. -/
theorem error_response_dumped_to_error_sink_witness :
    ({ sink := Sink.errorSink, msg := dumpResponseString r404 : LogEvent })
      ∈ (doReq cErrOnly tr404 decNopU "GET" "q" [] none 0 ([] : UMap)).logs :=
  error_response_dumped_to_error_sink cErrOnly tr404 decNopU "GET" "q" [] none 0 [] r404
    rfl (by decide) rfl

/-- C10 witness. -/
theorem result_map_non_nil_after_validation_witness :
    (Query cquiet tr200 decNopQ "" ["abc123"]).resp ≠ none
    ∧ (Upload cquiet tr200 decNopU "" none).resp = none :=
  ⟨(result_map_non_nil_after_validation cquiet tr200 decNopQ decNopU "" "" ["abc123"] none).1
      (by decide),
   ((result_map_non_nil_after_validation cquiet tr200 decNopQ decNopU "" "" ["abc123"] none).2.2.2
      (Or.inl rfl)).1⟩

end Infinigo
